import Mathlib

/-!
Shallow embedding of the whiteboard widget (`WhiteboardKonvaModal` and its
helpers) for checking the natural-language specification against the code.

Numbers are modelled by `ℚ` (the source works with JavaScript numbers; all
the constants and operations involved here are exact on rationals).
Colors, MIME types and image sources are modelled by `String`.
Pointer positions that may be unavailable (`stage.getPointerPosition()`
returning `null`) are modelled by `Option Pointer`.
-/

namespace Whiteboard

/-- `enum ToolType` from the source. -/
inductive ToolType where
  | mouseControl
  | pen
  | highlight
  | brush
  | square
  | circle
  | eraser
  | save
  | clearAll
  | undo
  | redo
  | arrow
  | cursor
  | null
  | close
  | note
  deriving DecidableEq, Repr

/-- `LineShape`: a freehand stroke; `points` is the flat normalized
`[x1,y1,x2,y2,...]` array of the source. -/
structure LineShape where
  tool : ToolType
  color : String
  stroke : ℚ
  points : List ℚ
  deriving DecidableEq, Repr

/-- Normalized circle geometry from `CircleShape.circle`. -/
structure CircleGeom where
  x : ℚ
  y : ℚ
  radius : ℚ
  deriving DecidableEq, Repr

/-- `CircleShape` (tool tag `"Circle"` is carried by the `AnyShape` constructor). -/
structure CircleShape where
  color : String
  stroke : ℚ
  circle : CircleGeom
  deriving DecidableEq, Repr

/-- Normalized rectangle geometry from `RectShape.rectangle`. -/
structure RectGeom where
  x : ℚ
  y : ℚ
  width : ℚ
  height : ℚ
  deriving DecidableEq, Repr

/-- `RectShape` (tool tag `"Square"` is carried by the `AnyShape` constructor). -/
structure RectShape where
  color : String
  stroke : ℚ
  rectangle : RectGeom
  deriving DecidableEq, Repr

/-- `ImageShape`: normalized origin `(x, y)` plus normalized `width`/`height`
and the image source reference. -/
structure ImageShape where
  src : String
  x : ℚ
  y : ℚ
  width : ℚ
  height : ℚ
  deriving DecidableEq, Repr

/-- `AnyShape = LineShape | CircleShape | RectShape | ImageShape`.
The string tool tags `"Circle"`, `"Square"`, `"Image"` of the source are the
constructors here. -/
inductive AnyShape where
  | line (s : LineShape)
  | circleS (s : CircleShape)
  | rectS (s : RectShape)
  | image (s : ImageShape)
  deriving DecidableEq, Repr

/-- `clamp(v, min, max) = Math.max(min, Math.min(max, v))`. -/
def clamp (v lo hi : ℚ) : ℚ := Max.max lo (Min.min hi v)

/-- `denormX(W, nx) = nx * W`. -/
def denormX (W nx : ℚ) : ℚ := nx * W

/-- `denormY(H, ny) = ny * H`. -/
def denormY (H ny : ℚ) : ℚ := ny * H

/-- `ratioForLine(W, H, normalized)`: the loop walks the flat array two
entries at a time, pushing `denormX W` of the even-indexed entry and
`denormY H` of the odd-indexed entry.  (On an odd-length array the source's
last iteration would read past the end; stroke point arrays always have even
length, so that case is unreachable and modelled by emitting the one read
that is in bounds.) -/
def ratioForLine (W H : ℚ) : List ℚ → List ℚ
  | nx :: ny :: rest => denormX W nx :: denormY H ny :: ratioForLine W H rest
  | [nx] => [denormX W nx]
  | [] => []

/-- A pointer position (`stage.getPointerPosition()` result, or the drag
release position), in stage pixel coordinates. -/
structure Pointer where
  x : ℚ
  y : ℚ
  deriving DecidableEq, Repr

/-- `onMouseDown`: given the active tool, the stage size, the (possibly
unavailable) pointer position, the current `isDrawingRef` flag and the shape
store, returns the new `(isDrawingRef, shapes)` pair.  Mirrors the source:
early return unless the tool is pen/highlight/eraser; set the drawing flag;
early return when no pointer position; otherwise append a fresh stroke
seeded with the clamped normalized point. -/
def onMouseDown (toolActive : ToolType) (stageW stageH : ℚ)
    (pos : Option Pointer) (isDrawing : Bool) (shapes : List AnyShape) :
    Bool × List AnyShape :=
  if ¬(toolActive = ToolType.pen ∨ toolActive = ToolType.highlight ∨
      toolActive = ToolType.eraser) then
    (isDrawing, shapes)
  else
    match pos with
    | none => (true, shapes)
    | some p =>
      let nx := clamp (p.x / stageW) 0 1
      let ny := clamp (p.y / stageH) 0 1
      let color := if toolActive = ToolType.highlight then "rgba(255,255,0,0.5)"
                   else "#222"
      let stroke : ℚ := if toolActive = ToolType.eraser then 24 else 3
      (true, shapes ++ [AnyShape.line ⟨toolActive, color, stroke, [nx, ny]⟩])

/-- `onMouseMove`: no-op unless drawing and a pointer position is available;
then, when the last shape of the store is a stroke, append the clamped
normalized point to its `points`; otherwise leave the store unchanged
(`if (!prev.length) return prev` is the `getLast? = none` case). -/
def onMouseMove (stageW stageH : ℚ) (pos : Option Pointer)
    (isDrawing : Bool) (shapes : List AnyShape) : List AnyShape :=
  if ¬isDrawing then shapes
  else
    match pos with
    | none => shapes
    | some p =>
      match shapes.getLast? with
      | some (AnyShape.line last) =>
        if last.tool = ToolType.pen ∨ last.tool = ToolType.highlight ∨
            last.tool = ToolType.eraser then
          let nx := clamp (p.x / stageW) 0 1
          let ny := clamp (p.y / stageH) 0 1
          shapes.dropLast ++
            [AnyShape.line { last with points := last.points ++ [nx, ny] }]
        else shapes
      | _ => shapes

/-- `dropAtPointer(src, e)`: the source first calls
`setPointersPositions(e)` and reads `getPointerPosition()`; an absent stage
ref or an unavailable position (both early returns) are modelled by
`pos = none`.  Otherwise append an `Image` shape at the clamped normalized
point with fixed normalized size `0.25 × 0.25`. -/
def dropAtPointer (src : String) (stageW stageH : ℚ)
    (pos : Option Pointer) (shapes : List AnyShape) : List AnyShape :=
  match pos with
  | none => shapes
  | some p =>
    let nx := clamp (p.x / stageW) 0 1
    let ny := clamp (p.y / stageH) 0 1
    let nW : ℚ := 0.25
    let nH : ℚ := 0.25
    shapes ++ [AnyShape.image ⟨src, nx, ny, nW, nH⟩]

/-- A dropped file, as the `onDrop` handler sees it: its MIME `type` and the
`FileReader` result (`none` models a non-string `reader.result`, which the
source's `typeof result === "string"` guard rejects). -/
structure FileData where
  type : String
  result : Option String
  deriving DecidableEq, Repr

/-- The `DataTransfer` payload of a drop event: `text` is
`getData("text/plain")` (empty string when absent, which is falsy in the
source) and `files` the dropped file list. -/
structure DataTransfer where
  text : String
  files : List FileData
  deriving DecidableEq, Repr

/-- JavaScript's `t.startsWith(p)` (used for the MIME check), modelled on
the string's character list so it evaluates inside proofs. -/
def jsStartsWith (t p : String) : Bool := p.data.isPrefixOf t.data

/-- The `onDrop` handler of the desktop drag-and-drop effect: no
`dataTransfer` → ignore; a non-empty `"text/plain"` payload → drop it at the
pointer; otherwise the first file, only when its MIME type starts with
`"image/"` and the reader delivers a string data URL, is dropped at the
pointer; anything else is ignored. -/
def onDrop (stageW stageH : ℚ) (pos : Option Pointer)
    (ds : Option DataTransfer) (shapes : List AnyShape) : List AnyShape :=
  match ds with
  | none => shapes
  | some d =>
    if d.text ≠ "" then dropAtPointer d.text stageW stageH pos shapes
    else
      match d.files.head? with
      | some f =>
        if jsStartsWith f.type "image/" then
          match f.result with
          | some dataUrl => dropAtPointer dataUrl stageW stageH pos shapes
          | none => shapes
        else shapes
      | none => shapes

/-- `window.__dropImageFromUpload(dataUrl)`: rejects a payload that is not a
string (`dataUrl = none`), otherwise synthesizes a drop at the surface's
visual center (the source builds a fake event whose client coordinates map
to the stage-local center pointer, given here). -/
def dropImageFromUpload (stageW stageH : ℚ) (center : Pointer)
    (dataUrl : Option String) (shapes : List AnyShape) : List AnyShape :=
  match dataUrl with
  | none => shapes
  | some s => dropAtPointer s stageW stageH (some center) shapes

/-- A loaded `HTMLImageElement`'s intrinsic pixel dimensions (`useImageEl`
result once `onload` fired; `none` while still loading). -/
structure ImgEl where
  width : ℚ
  height : ℚ
  deriving DecidableEq, Repr

/-- Props of the `<Line>` element rendered for a stroke shape (the fields
the spec talks about). -/
structure LineProps where
  points : List ℚ
  stroke : String
  strokeWidth : ℚ
  globalCompositeOperation : String
  deriving DecidableEq, Repr

/-- The stroke render branch of the shape layer. -/
def renderLine (stageW stageH : ℚ) (s : LineShape) : LineProps :=
  { points := ratioForLine stageW stageH s.points,
    stroke := if s.tool = ToolType.eraser then "#000" else s.color,
    strokeWidth := s.stroke,
    globalCompositeOperation :=
      if s.tool = ToolType.eraser then "destination-out" else "source-over" }

/-- Props of the `<KonvaCircle>` element. -/
structure CircleProps where
  x : ℚ
  y : ℚ
  radius : ℚ
  stroke : String
  strokeWidth : ℚ
  deriving DecidableEq, Repr

/-- The circle render branch of the shape layer. -/
def renderCircle (stageW stageH : ℚ) (s : CircleShape) : CircleProps :=
  { x := denormX stageW s.circle.x,
    y := denormY stageH s.circle.y,
    radius := denormX stageW s.circle.radius,
    stroke := s.color,
    strokeWidth := s.stroke }

/-- Props of the `<KonvaRect>` element. -/
structure RectProps where
  x : ℚ
  y : ℚ
  width : ℚ
  height : ℚ
  stroke : String
  strokeWidth : ℚ
  deriving DecidableEq, Repr

/-- The rectangle render branch of the shape layer. -/
def renderRect (stageW stageH : ℚ) (s : RectShape) : RectProps :=
  { x := denormX stageW s.rectangle.x,
    y := denormY stageH s.rectangle.y,
    width := denormX stageW s.rectangle.width,
    height := denormY stageH s.rectangle.height,
    stroke := s.color,
    strokeWidth := s.stroke }

/-- Props of the `<KonvaImage>` element produced by `RenderImageBase`.
`hasDragEndHandler`/`hasDragMoveHandler` record which drag callbacks the
JSX wires up (only `onDragEnd` is passed; there is no `onDragMove`, so no
store commit can happen on intermediate drag ticks). -/
structure KonvaImageProps where
  x : ℚ
  y : ℚ
  width : ℚ
  height : ℚ
  offsetX : ℚ
  offsetY : ℚ
  draggable : Bool
  hasDragEndHandler : Bool
  hasDragMoveHandler : Bool
  deriving DecidableEq, Repr

/-- The geometry part of `RenderImageBase`: normalized → px, with
`desiredHByAspect` following the intrinsic aspect ratio once the image
element has loaded, and the stored normalized height before that.  The
element is drawn with `offsetX = targetW/2`, `offsetY = targetH/2`, i.e.
centered on `(px, py)`. -/
def renderImage (stageW stageH : ℚ) (imgEl : Option ImgEl)
    (shape : ImageShape) : KonvaImageProps :=
  let px := shape.x * stageW
  let py := shape.y * stageH
  let targetW := shape.width * stageW
  let desiredHByAspect :=
    match imgEl with
    | some img => targetW * (img.height / img.width)
    | none => shape.height * stageH
  let targetH := desiredHByAspect
  { x := px, y := py, width := targetW, height := targetH,
    offsetX := targetW / 2, offsetY := targetH / 2,
    draggable := true, hasDragEndHandler := true, hasDragMoveHandler := false }

/-- `commitPos(index, nx, ny)`: replace shape `index` by a copy with the new
normalized position.  The source casts `u[index]` to `ImageShape`; `index`
always addresses an image shape (it comes from the image layer's `map`), so
a non-image entry is modelled as leaving the store unchanged. -/
def commitPos (index : ℕ) (nx ny : ℚ) (shapes : List AnyShape) :
    List AnyShape :=
  match shapes.get? index with
  | some (AnyShape.image img) =>
    shapes.set index (AnyShape.image { img with x := nx, y := ny })
  | _ => shapes

/-- `commitHeightByAspect(index, nh)`: replace shape `index` by a copy with
the new normalized height (same casting remark as `commitPos`). -/
def commitHeightByAspect (index : ℕ) (nh : ℚ) (shapes : List AnyShape) :
    List AnyShape :=
  match shapes.get? index with
  | some (AnyShape.image img) =>
    shapes.set index (AnyShape.image { img with height := nh })
  | _ => shapes

/-- `handleDragEnd`: on drag release, the node's pixel position is clamped,
renormalized and committed via `commitPos` — the only state update of the
whole drag interaction. -/
def handleDragEnd (index : ℕ) (stageW stageH : ℚ) (relPos : Pointer)
    (shapes : List AnyShape) : List AnyShape :=
  commitPos index (clamp (relPos.x / stageW) 0 1) (clamp (relPos.y / stageH) 0 1)
    shapes

/-- The aspect-commit `useEffect` body of `RenderImageBase`, run whenever
its dependencies (`imgEl`, `desiredHByAspect`, `stageH`, `shape.height`, …)
change: once the image element is loaded, recompute the normalized height
from the intrinsic aspect ratio at the current width and commit it when it
differs from the stored one by more than `0.001`. -/
def aspectCommitEffect (index : ℕ) (stageW stageH : ℚ)
    (imgEl : Option ImgEl) (shapes : List AnyShape) : List AnyShape :=
  match shapes.get? index with
  | some (AnyShape.image shape) =>
    match imgEl with
    | none => shapes
    | some img =>
      let targetW := shape.width * stageW
      let desiredHByAspect := targetW * (img.height / img.width)
      let nh := desiredHByAspect / stageH
      if |nh - shape.height| > 0.001 then commitHeightByAspect index nh shapes
      else shapes
  | _ => shapes

/-! ### Modal sizing (the `Resizable` chrome) -/

def FOOTER_HEIGHT : ℚ := 56
def PADDING_H : ℚ := 40
def PADDING_V : ℚ := 40
def NAV_BAR_H : ℚ := 40
def GALLERY_H : ℚ := 96

/-- `baseWidth = Math.max(280, windowW - PADDING_H * 2)`. -/
def baseWidth (windowW : ℚ) : ℚ := Max.max 280 (windowW - PADDING_H * 2)

/-- `baseHeight = Math.max(240, windowH - FOOTER_HEIGHT - PADDING_V * 2)`. -/
def baseHeight (windowH : ℚ) : ℚ :=
  Max.max 240 (windowH - FOOTER_HEIGHT - PADDING_V * 2)

/-- The sizing-relevant component state: current viewport dimensions and the
current modal `size`. -/
structure ModalState where
  windowW : ℚ
  windowH : ℚ
  width : ℚ
  height : ℚ
  deriving DecidableEq, Repr

/-- Initial state: `useState({ width: baseWidth, height: baseHeight })`. -/
def initModal (windowW windowH : ℚ) : ModalState :=
  { windowW := windowW, windowH := windowH,
    width := baseWidth windowW, height := baseHeight windowH }

/-- `onResizeStop`: commit the dragged element's new dimensions, clamped to
`[280, baseWidth] × [240, baseHeight]`. -/
def onResizeStop (newW newH : ℚ) (st : ModalState) : ModalState :=
  { st with
    width := clamp newW 280 (baseWidth st.windowW),
    height := clamp newH 240 (baseHeight st.windowH) }

/-- The `useEffect` on `[baseWidth, baseHeight]`: after a viewport change,
shrink the current size to the new base bounds
(`width: Math.min(prev.width, baseWidth)`, same for height). -/
def onViewportChange (windowW windowH : ℚ) (st : ModalState) : ModalState :=
  { windowW := windowW, windowH := windowH,
    width := Min.min st.width (baseWidth windowW),
    height := Min.min st.height (baseHeight windowH) }

/-- `stageH = Math.max(0, size.height - NAV_BAR_H - GALLERY_H)`. -/
def stageHOf (st : ModalState) : ℚ :=
  Max.max 0 (st.height - NAV_BAR_H - GALLERY_H)

/-- `stageW = size.width`. -/
def stageWOf (st : ModalState) : ℚ := st.width

/-- The sizing operations a session can perform after mount. -/
inductive ModalOp where
  | resizeStop (newW newH : ℚ)
  | viewportChange (windowW windowH : ℚ)
  deriving DecidableEq, Repr

/-- Apply one sizing operation. -/
def applyModalOp (op : ModalOp) (st : ModalState) : ModalState :=
  match op with
  | ModalOp.resizeStop newW newH => onResizeStop newW newH st
  | ModalOp.viewportChange windowW windowH => onViewportChange windowW windowH st

/-- Run a sequence of sizing operations. -/
def runModalOps (ops : List ModalOp) (st : ModalState) : ModalState :=
  ops.foldl (fun s op => applyModalOp op s) st

/-! ### Auxiliary predicates and helpers for the statements -/

/-- A rational lies in the normalized range `[0, 1]`. -/
def inUnit (v : ℚ) : Prop := 0 ≤ v ∧ v ≤ 1

/-- Every normalized quantity a shape stores through pointer interaction
lies in `[0, 1]` (stroke points, image position and image size). -/
def shapeCoordsOK : AnyShape → Prop
  | AnyShape.line s => ∀ p ∈ s.points, inUnit p
  | AnyShape.image s => inUnit s.x ∧ inUnit s.y ∧ inUnit s.width ∧ inUnit s.height
  | _ => True

/-- `shapeCoordsOK` for every shape of the store. -/
def storeCoordsOK (shapes : List AnyShape) : Prop :=
  ∀ s ∈ shapes, shapeCoordsOK s

/-- Interleave a list of normalized point pairs into the flat
`[x1,y1,x2,y2,...]` representation the shapes store. -/
def flattenPoints : List (ℚ × ℚ) → List ℚ
  | [] => []
  | p :: rest => p.1 :: p.2 :: flattenPoints rest

/-- Normalize a raw pointer position against the stage size, as every
pointer-interaction handler does. -/
def normPoint (stageW stageH : ℚ) (p : Pointer) : ℚ × ℚ :=
  (clamp (p.x / stageW) 0 1, clamp (p.y / stageH) 0 1)

/-- Fold `onMouseMove` (with the drawing flag up and an available pointer
position) over a list of move positions. -/
def runMoves (stageW stageH : ℚ) (moves : List Pointer)
    (shapes : List AnyShape) : List AnyShape :=
  moves.foldl (fun sh p => onMouseMove stageW stageH (some p) true sh) shapes

/-- Pixel x-center of a drawn Konva element: the node's top-left corner is
`(x - offsetX, y - offsetY)`, so the center is that plus half the size. -/
def konvaCenterX (props : KonvaImageProps) : ℚ :=
  props.x - props.offsetX + props.width / 2

/-- Pixel y-center of a drawn Konva element. -/
def konvaCenterY (props : KonvaImageProps) : ℚ :=
  props.y - props.offsetY + props.height / 2

/-- The size bounds the sizing controller is meant to maintain. -/
def sizeInvariant (st : ModalState) : Prop :=
  280 ≤ st.width ∧ st.width ≤ baseWidth st.windowW ∧
  240 ≤ st.height ∧ st.height ≤ baseHeight st.windowH

/-! ## Helper lemmas -/

theorem clamp01_inUnit (v : ℚ) : inUnit (clamp v 0 1) :=
  ⟨le_max_left 0 _, max_le (by norm_num) (min_le_left 1 v)⟩

theorem clamp01_eq_self {v : ℚ} (h0 : 0 ≤ v) (h1 : v ≤ 1) : clamp v 0 1 = v := by
  unfold clamp
  rw [min_eq_right h1, max_eq_right h0]

theorem storeCoordsOK_append_single {shapes : List AnyShape} {a : AnyShape}
    (h : storeCoordsOK shapes) (ha : shapeCoordsOK a) :
    storeCoordsOK (shapes ++ [a]) := by
  intro s hs
  rcases List.mem_append.1 hs with h1 | h2
  · exact h s h1
  · rw [List.mem_singleton.1 h2]
    exact ha

theorem storeCoordsOK_set {shapes : List AnyShape} {i : ℕ} {a : AnyShape}
    (h : storeCoordsOK shapes) (ha : shapeCoordsOK a) :
    storeCoordsOK (shapes.set i a) := by
  intro s hs
  rcases List.mem_or_eq_of_mem_set hs with h1 | rfl
  · exact h s h1
  · exact ha

theorem onMouseDown_coordsOK {t : ToolType} {W H : ℚ} {pos : Option Pointer}
    {d : Bool} {shapes : List AnyShape} (hOK : storeCoordsOK shapes) :
    storeCoordsOK (onMouseDown t W H pos d shapes).2 := by
  unfold onMouseDown
  split
  · exact hOK
  · cases pos with
    | none => exact hOK
    | some p =>
      refine storeCoordsOK_append_single hOK ?_
      intro q hq
      rcases List.mem_cons.1 hq with rfl | hq0
      · exact clamp01_inUnit _
      · rcases List.mem_singleton.1 hq0 with rfl
        exact clamp01_inUnit _

theorem onMouseMove_coordsOK {W H : ℚ} {pos : Option Pointer} {d : Bool}
    {shapes : List AnyShape} (hOK : storeCoordsOK shapes) :
    storeCoordsOK (onMouseMove W H pos d shapes) := by
  unfold onMouseMove
  split
  · exact hOK
  · split
    · exact hOK
    · split
      · next last hlast =>
        split
        · refine storeCoordsOK_append_single (fun s hs => hOK s (List.mem_of_mem_dropLast hs)) ?_
          intro q hq
          rcases List.mem_append.1 hq with hq0 | hq1
          · have hmem : AnyShape.line last ∈ shapes := by
              have hopt : AnyShape.line last ∈ shapes.getLast? := by
                rw [hlast]
                rfl
              rcases List.mem_getLast?_eq_getLast hopt with ⟨hne, hx⟩
              rw [hx]
              exact List.getLast_mem hne
            exact hOK _ hmem q hq0
          · rcases List.mem_cons.1 hq1 with rfl | hq2
            · exact clamp01_inUnit _
            · rcases List.mem_singleton.1 hq2 with rfl
              exact clamp01_inUnit _
        · exact hOK
      · exact hOK

theorem dropAtPointer_coordsOK {src : String} {W H : ℚ} {pos : Option Pointer}
    {shapes : List AnyShape} (hOK : storeCoordsOK shapes) :
    storeCoordsOK (dropAtPointer src W H pos shapes) := by
  unfold dropAtPointer
  cases pos with
  | none => exact hOK
  | some p =>
    refine storeCoordsOK_append_single hOK ?_
    exact ⟨clamp01_inUnit _, clamp01_inUnit _, by norm_num [inUnit], by norm_num [inUnit]⟩

theorem handleDragEnd_coordsOK {index : ℕ} {W H : ℚ} {rel : Pointer}
    {shapes : List AnyShape} (hOK : storeCoordsOK shapes) :
    storeCoordsOK (handleDragEnd index W H rel shapes) := by
  unfold handleDragEnd commitPos
  split
  · next img heq =>
    refine storeCoordsOK_set hOK ?_
    have hmem : AnyShape.image img ∈ shapes := List.get?_mem heq
    have hold := hOK _ hmem
    exact ⟨clamp01_inUnit _, clamp01_inUnit _, hold.2.2.1, hold.2.2.2⟩
  · exact hOK

theorem ratioForLine_flattenPoints (W H : ℚ) (pairs : List (ℚ × ℚ)) :
    ratioForLine W H (flattenPoints pairs) =
      flattenPoints (pairs.map (fun q => (denormX W q.1, denormY H q.2))) := by
  induction pairs with
  | nil => rfl
  | cons q rest ih => simp [flattenPoints, ratioForLine, ih]

theorem onMouseMove_stroke_last (W H : ℚ) (p : Pointer) (shapes : List AnyShape)
    (last : LineShape) (hlast : shapes.getLast? = some (AnyShape.line last))
    (hstroke : last.tool = ToolType.pen ∨ last.tool = ToolType.highlight ∨
      last.tool = ToolType.eraser) :
    onMouseMove W H (some p) true shapes =
      shapes.dropLast ++ [AnyShape.line { last with points := last.points ++
        [clamp (p.x / W) 0 1, clamp (p.y / H) 0 1] }] := by
  unfold onMouseMove
  rw [hlast]
  simp [hstroke]

theorem onMouseMove_nonstroke_last (W H : ℚ) (p : Pointer) (shapes : List AnyShape)
    (hlast : ∀ last : LineShape, shapes.getLast? = some (AnyShape.line last) →
      ¬(last.tool = ToolType.pen ∨ last.tool = ToolType.highlight ∨
        last.tool = ToolType.eraser)) :
    onMouseMove W H (some p) true shapes = shapes := by
  unfold onMouseMove
  split
  · rfl
  · split
    · rfl
    · split
      · next last heq =>
        rw [if_neg (hlast last heq)]
      · rfl

theorem runMoves_stroke_growth (W H : ℚ) (moves : List Pointer)
    (prev : List AnyShape) (ls : LineShape)
    (hls : ls.tool = ToolType.pen ∨ ls.tool = ToolType.highlight ∨
      ls.tool = ToolType.eraser) :
    runMoves W H moves (prev ++ [AnyShape.line ls]) =
      prev ++ [AnyShape.line
        { ls with points := ls.points ++ flattenPoints (moves.map (normPoint W H)) }] := by
  induction moves generalizing ls with
  | nil =>
    simp [runMoves, flattenPoints]
  | cons p rest ih =>
    have hstep := onMouseMove_stroke_last W H p (prev ++ [AnyShape.line ls]) ls
      (List.getLast?_concat _) hls
    rw [List.dropLast_concat] at hstep
    have : runMoves W H (p :: rest) (prev ++ [AnyShape.line ls]) =
        runMoves W H rest (onMouseMove W H (some p) true (prev ++ [AnyShape.line ls])) := rfl
    rw [this, hstep,
      ih { ls with points := ls.points ++ [clamp (p.x / W) 0 1, clamp (p.y / H) 0 1] } hls]
    simp [flattenPoints, normPoint, List.append_assoc]

/-! ## Claims -/

/-- C1: every shape-store mutation a pointer interaction triggers — stroke
start on pointer-down, point append on pointer-move, image drop, and the
image drag-release commit — writes only normalized values in `[0, 1]` into
the store, for every raw pointer position (out-of-surface positions clamp
to the boundary). -/
theorem pointer_writes_stay_normalized (toolActive : ToolType) (stageW stageH : ℚ)
    (pos : Option Pointer) (isDrawing : Bool) (src : String) (index : ℕ)
    (rel : Pointer) (shapes : List AnyShape) (hOK : storeCoordsOK shapes) :
    storeCoordsOK (onMouseDown toolActive stageW stageH pos isDrawing shapes).2 ∧
    storeCoordsOK (onMouseMove stageW stageH pos isDrawing shapes) ∧
    storeCoordsOK (dropAtPointer src stageW stageH pos shapes) ∧
    storeCoordsOK (handleDragEnd index stageW stageH rel shapes) :=
  ⟨onMouseDown_coordsOK hOK, onMouseMove_coordsOK hOK,
    dropAtPointer_coordsOK hOK, handleDragEnd_coordsOK hOK⟩

/-- Witness for C1 at a pointer position far outside an 800×600 surface and
an empty store. -/
theorem pointer_writes_stay_normalized_witness :
    storeCoordsOK [] ∧
    (storeCoordsOK (onMouseDown ToolType.pen 800 600 (some ⟨1000, -50⟩) false []).2 ∧
      storeCoordsOK (onMouseMove 800 600 (some ⟨1000, -50⟩) false []) ∧
      storeCoordsOK (dropAtPointer "img" 800 600 (some ⟨1000, -50⟩) []) ∧
      storeCoordsOK (handleDragEnd 0 800 600 ⟨1000, -50⟩ [])) :=
  have hOK : storeCoordsOK [] := fun s hs => absurd hs (List.not_mem_nil s)
  ⟨hOK, pointer_writes_stay_normalized ToolType.pen 800 600 (some ⟨1000, -50⟩)
    false "img" 0 ⟨1000, -50⟩ [] hOK⟩

/-- C2 counterexample: the claim "each denormalized y-component equals the
normalized value times the current height" fails for an image whose asset
has loaded.  A stored image of normalized height 1/4 on an 800×600 surface
whose 300×200 asset is loaded renders with pixel height
0.25·800·(200/300) = 400/3, not 1/4·600 = 150: once loaded, the rendered
height follows the intrinsic aspect ratio at the current width, not the
stored normalized height. -/
theorem render_loaded_image_height_not_proportional :
    (renderImage 800 600 (some ⟨300, 200⟩) ⟨"img", 1/2, 1/2, 1/4, 1/4⟩).height ≠
      1/4 * 600 := by
  norm_num [renderImage]

/-- C2 (amended): rendering denormalizes stored geometry against the
current surface size: every denormalized x-component is the normalized
value times the width and every y-component the normalized value times the
height — for stroke point arrays, circles, rectangles and images whose
asset has not yet loaded — so their pixel geometry scales proportionally
with the surface, and rendering only reads the store.  For an image whose
asset has loaded, position and width still scale that way, but the rendered
height is the target width times the intrinsic aspect ratio
(`img.height / img.width`), not the stored normalized height times the
surface height (and the accompanying aspect-commit effect can re-commit the
stored height after a non-uniform resize, as settled under C3). -/
theorem render_scales_proportionally (W H : ℚ) (img : ImgEl) :
    (∀ pairs : List (ℚ × ℚ),
      ratioForLine W H (flattenPoints pairs) =
        flattenPoints (pairs.map (fun q => (q.1 * W, q.2 * H)))) ∧
    (∀ s : CircleShape,
      (renderCircle W H s).x = s.circle.x * W ∧
      (renderCircle W H s).y = s.circle.y * H ∧
      (renderCircle W H s).radius = s.circle.radius * W) ∧
    (∀ s : RectShape,
      (renderRect W H s).x = s.rectangle.x * W ∧
      (renderRect W H s).y = s.rectangle.y * H ∧
      (renderRect W H s).width = s.rectangle.width * W ∧
      (renderRect W H s).height = s.rectangle.height * H) ∧
    (∀ s : ImageShape,
      (renderImage W H none s).x = s.x * W ∧
      (renderImage W H none s).y = s.y * H ∧
      (renderImage W H none s).width = s.width * W ∧
      (renderImage W H none s).height = s.height * H) ∧
    (∀ s : ImageShape,
      (renderImage W H (some img) s).x = s.x * W ∧
      (renderImage W H (some img) s).y = s.y * H ∧
      (renderImage W H (some img) s).width = s.width * W ∧
      (renderImage W H (some img) s).height = s.width * W * (img.height / img.width)) :=
  ⟨fun pairs => ratioForLine_flattenPoints W H pairs,
    fun _ => ⟨rfl, rfl, rfl⟩,
    fun _ => ⟨rfl, rfl, rfl, rfl⟩,
    fun _ => ⟨rfl, rfl, rfl, rfl⟩,
    fun _ => ⟨rfl, rfl, rfl, rfl⟩⟩

/-- C3: the aspect-commit effect evaluated at a 3:2 image (300×200 px),
normalized width 0.25, on an 800×600 surface.  First run after load:
the normalized height commits to (0.25·800·(2/3))/600 = 2/9 — exactly the
claimed 200×(2/3)/surfaceHeight.  A second run at the same surface size is
a no-op (difference 0 is within the 0.001 tolerance).  But after a
non-uniform resize of the surface to 800×300 the effect's dependencies
change and it runs again: the recomputed normalized height 4/9 differs from
the stored 2/9 by more than 0.001, so the correction re-commits — contrary
to the claim (and to the code's own comment) that it happens exactly once
and that surface resizes never re-trigger it. -/
theorem aspect_commit_retriggers_on_resize :
    aspectCommitEffect 0 800 600 (some ⟨300, 200⟩)
        [AnyShape.image ⟨"img", 1/2, 1/2, 1/4, 1/4⟩] =
      [AnyShape.image ⟨"img", 1/2, 1/2, 1/4, 2/9⟩] ∧
    aspectCommitEffect 0 800 600 (some ⟨300, 200⟩)
        [AnyShape.image ⟨"img", 1/2, 1/2, 1/4, 2/9⟩] =
      [AnyShape.image ⟨"img", 1/2, 1/2, 1/4, 2/9⟩] ∧
    aspectCommitEffect 0 800 300 (some ⟨300, 200⟩)
        [AnyShape.image ⟨"img", 1/2, 1/2, 1/4, 2/9⟩] =
      [AnyShape.image ⟨"img", 1/2, 1/2, 1/4, 4/9⟩] := by
  refine ⟨?_, ?_, ?_⟩ <;>
    norm_num [aspectCommitEffect, commitHeightByAspect, abs, max_def]

/-- C4: dropping an image at an in-surface pointer position appends an
Image shape of fixed normalized size 0.25 × 0.25 at the normalized drop
point, and the rendered Konva element (offset by half its target size) is
centered exactly on the drop point, with pixel size a quarter of the
surface in each dimension. -/
theorem dropAtPointer_image_centered (W H : ℚ) (p : Pointer) (src : String)
    (prev : List AnyShape) (hW : 0 < W) (hH : 0 < H)
    (hx0 : 0 ≤ p.x) (hx1 : p.x ≤ W) (hy0 : 0 ≤ p.y) (hy1 : p.y ≤ H) :
    dropAtPointer src W H (some p) prev =
      prev ++ [AnyShape.image ⟨src, p.x / W, p.y / H, 0.25, 0.25⟩] ∧
    konvaCenterX (renderImage W H none ⟨src, p.x / W, p.y / H, 0.25, 0.25⟩) = p.x ∧
    konvaCenterY (renderImage W H none ⟨src, p.x / W, p.y / H, 0.25, 0.25⟩) = p.y ∧
    (renderImage W H none ⟨src, p.x / W, p.y / H, 0.25, 0.25⟩).width = 0.25 * W ∧
    (renderImage W H none ⟨src, p.x / W, p.y / H, 0.25, 0.25⟩).height = 0.25 * H := by
  have hnx : clamp (p.x / W) 0 1 = p.x / W :=
    clamp01_eq_self (div_nonneg hx0 hW.le) ((div_le_one hW).2 hx1)
  have hny : clamp (p.y / H) 0 1 = p.y / H :=
    clamp01_eq_self (div_nonneg hy0 hH.le) ((div_le_one hH).2 hy1)
  refine ⟨?_, ?_, ?_, rfl, ?_⟩
  · show prev ++ [AnyShape.image ⟨src, clamp (p.x / W) 0 1, clamp (p.y / H) 0 1,
        0.25, 0.25⟩] = _
    rw [hnx, hny]
  · show p.x / W * W - 0.25 * W / 2 + 0.25 * W / 2 = p.x
    rw [sub_add_cancel, div_mul_cancel₀ _ hW.ne']
  · show p.y / H * H - 0.25 * H / 2 + 0.25 * H / 2 = p.y
    rw [sub_add_cancel, div_mul_cancel₀ _ hH.ne']
  · rfl

/-- Witness for C4: a drop at pixel (400, 300) on an 800×600 surface lands
at normalized (1/2, 1/2), rendered centered at (400, 300) with pixel size
200 × 150. -/
theorem dropAtPointer_image_centered_witness :
    (0 : ℚ) < 800 ∧ (0 : ℚ) < 600 ∧
    dropAtPointer "img" 800 600 (some ⟨400, 300⟩) [] =
      [AnyShape.image ⟨"img", 1/2, 1/2, 1/4, 1/4⟩] ∧
    konvaCenterX (renderImage 800 600 none ⟨"img", 1/2, 1/2, 1/4, 1/4⟩) = 400 ∧
    konvaCenterY (renderImage 800 600 none ⟨"img", 1/2, 1/2, 1/4, 1/4⟩) = 300 ∧
    (renderImage 800 600 none ⟨"img", 1/2, 1/2, 1/4, 1/4⟩).width = 200 ∧
    (renderImage 800 600 none ⟨"img", 1/2, 1/2, 1/4, 1/4⟩).height = 150 := by
  have h := dropAtPointer_image_centered 800 600 ⟨400, 300⟩ "img" []
    (by norm_num) (by norm_num) (by norm_num) (by norm_num) (by norm_num) (by norm_num)
  refine ⟨by norm_num, by norm_num, h.1.trans (by norm_num), ?_, ?_, ?_, ?_⟩ <;>
    norm_num [konvaCenterX, konvaCenterY, renderImage]

/-- C5: a drawing session — pointer-down with a stroke tool at an available
position, followed by any sequence of pointer-moves with available
positions — appends exactly one shape to the store, whose point sequence is
the session's normalized points in arrival order; and a pointer-move
appends exactly one normalized point to the last shape precisely when that
last shape is a stroke (pen, highlight or eraser). -/
theorem stroke_session_single_shape (t : ToolType) (W H : ℚ) (p0 : Pointer)
    (moves : List Pointer) (prev : List AnyShape)
    (ht : t = ToolType.pen ∨ t = ToolType.highlight ∨ t = ToolType.eraser) :
    (onMouseDown t W H (some p0) false prev).1 = true ∧
    runMoves W H moves (onMouseDown t W H (some p0) false prev).2 =
      prev ++ [AnyShape.line ⟨t,
        (if t = ToolType.highlight then "rgba(255,255,0,0.5)" else "#222"),
        (if t = ToolType.eraser then 24 else 3),
        flattenPoints ((p0 :: moves).map (normPoint W H))⟩] ∧
    (∀ (shapes : List AnyShape) (p : Pointer) (last : LineShape),
      shapes.getLast? = some (AnyShape.line last) →
      (last.tool = ToolType.pen ∨ last.tool = ToolType.highlight ∨
        last.tool = ToolType.eraser) →
      onMouseMove W H (some p) true shapes =
        shapes.dropLast ++ [AnyShape.line
          { last with points := last.points ++ [clamp (p.x / W) 0 1, clamp (p.y / H) 0 1] }]) ∧
    (∀ (shapes : List AnyShape) (p : Pointer),
      (∀ last : LineShape, shapes.getLast? = some (AnyShape.line last) →
        ¬(last.tool = ToolType.pen ∨ last.tool = ToolType.highlight ∨
          last.tool = ToolType.eraser)) →
      onMouseMove W H (some p) true shapes = shapes) := by
  have hdown : onMouseDown t W H (some p0) false prev = (true,
      prev ++ [AnyShape.line ⟨t,
        (if t = ToolType.highlight then "rgba(255,255,0,0.5)" else "#222"),
        (if t = ToolType.eraser then 24 else 3),
        [clamp (p0.x / W) 0 1, clamp (p0.y / H) 0 1]⟩]) := by
    unfold onMouseDown
    rw [if_neg (not_not_intro ht)]
  refine ⟨by rw [hdown], ?_, ?_, ?_⟩
  · rw [hdown]
    rw [runMoves_stroke_growth W H moves prev ⟨t,
      (if t = ToolType.highlight then "rgba(255,255,0,0.5)" else "#222"),
      (if t = ToolType.eraser then 24 else 3),
      [clamp (p0.x / W) 0 1, clamp (p0.y / H) 0 1]⟩ ht]
    simp [flattenPoints, normPoint]
  · intro shapes p last hl hs
    exact onMouseMove_stroke_last W H p shapes last hl hs
  · intro shapes p hl
    exact onMouseMove_nonstroke_last W H p shapes hl

/-- Witness for C5: a pen session on an 800×600 surface — down at (80, 60),
moves at (160, 120) and at the out-of-surface (1000, −5) — yields the single
stroke with points [1/10, 1/10, 1/5, 1/5, 1, 0] in arrival order. -/
theorem stroke_session_single_shape_witness :
    (ToolType.pen = ToolType.pen ∨ ToolType.pen = ToolType.highlight ∨
      ToolType.pen = ToolType.eraser) ∧
    (onMouseDown ToolType.pen 800 600 (some ⟨80, 60⟩) false []).1 = true ∧
    runMoves 800 600 [⟨160, 120⟩, ⟨1000, -5⟩]
        (onMouseDown ToolType.pen 800 600 (some ⟨80, 60⟩) false []).2 =
      [AnyShape.line ⟨ToolType.pen, "#222", 3, [1/10, 1/10, 1/5, 1/5, 1, 0]⟩] := by
  have h := stroke_session_single_shape ToolType.pen 800 600 ⟨80, 60⟩
    [⟨160, 120⟩, ⟨1000, -5⟩] [] (Or.inl rfl)
  refine ⟨Or.inl rfl, h.1, h.2.1.trans ?_⟩
  norm_num [flattenPoints, normPoint, clamp, min_def, max_def]
  decide

theorem baseWidth_lb (w : ℚ) : 280 ≤ baseWidth w := le_max_left _ _

theorem baseHeight_lb (h : ℚ) : 240 ≤ baseHeight h := le_max_left _ _

theorem sizeInvariant_init (w h : ℚ) : sizeInvariant (initModal w h) :=
  ⟨baseWidth_lb w, le_refl _, baseHeight_lb h, le_refl _⟩

theorem sizeInvariant_apply (op : ModalOp) (st : ModalState)
    (h : sizeInvariant st) : sizeInvariant (applyModalOp op st) := by
  cases op with
  | resizeStop newW newH =>
    exact ⟨le_max_left _ _, max_le (baseWidth_lb _) (min_le_left _ _),
      le_max_left _ _, max_le (baseHeight_lb _) (min_le_left _ _)⟩
  | viewportChange w2 h2 =>
    exact ⟨le_min h.1 (baseWidth_lb _), min_le_right _ _,
      le_min h.2.2.1 (baseHeight_lb _), min_le_right _ _⟩

theorem sizeInvariant_run (ops : List ModalOp) (st : ModalState)
    (h : sizeInvariant st) : sizeInvariant (runModalOps ops st) := by
  induction ops generalizing st with
  | nil => exact h
  | cons op rest ih => exact ih _ (sizeInvariant_apply op st h)

/-- C6: from mount on, after any sequence of resize-stops (raw dimensions
clamped to `[280, baseWidth] × [240, baseHeight]`) and viewport changes
(current size shrunk back under the new base bounds), the modal size always
satisfies `280 ≤ width ≤ baseWidth` and `240 ≤ height ≤ baseHeight`; hence
the drawing stage height — the modal height minus the 136px of nav-bar and
gallery chrome — stays positive. -/
theorem modal_size_bounds (w0 h0 : ℚ) (ops : List ModalOp) :
    280 ≤ (runModalOps ops (initModal w0 h0)).width ∧
    (runModalOps ops (initModal w0 h0)).width ≤
      baseWidth (runModalOps ops (initModal w0 h0)).windowW ∧
    240 ≤ (runModalOps ops (initModal w0 h0)).height ∧
    (runModalOps ops (initModal w0 h0)).height ≤
      baseHeight (runModalOps ops (initModal w0 h0)).windowH ∧
    stageHOf (runModalOps ops (initModal w0 h0)) =
      (runModalOps ops (initModal w0 h0)).height - 136 ∧
    0 < stageHOf (runModalOps ops (initModal w0 h0)) := by
  have h := sizeInvariant_run ops _ (sizeInvariant_init w0 h0)
  have h240 : 240 ≤ (runModalOps ops (initModal w0 h0)).height := h.2.2.1
  have hst : stageHOf (runModalOps ops (initModal w0 h0)) =
      (runModalOps ops (initModal w0 h0)).height - 136 := by
    unfold stageHOf NAV_BAR_H GALLERY_H
    rw [max_eq_right (by linarith)]
    ring
  exact ⟨h.1, h.2.1, h240, h.2.2.2, hst, by rw [hst]; linarith⟩

/-- C7: every narrow failure mode is a silent no-op on the shape store: a
pointer-down or pointer-move without an available pointer position appends
nothing, a drop with no data-transfer or with an empty/unrecognized payload
appends nothing, a dropped file whose MIME type does not start with
`"image/"` appends nothing (as does one whose reader result is not a
string), and an upload callback whose payload is not a string appends
nothing. -/
theorem narrow_failures_are_noops (W H : ℚ) (t : ToolType) (d : Bool)
    (pos : Option Pointer) (center : Pointer) (src : String)
    (shapes : List AnyShape) (f g : FileData)
    (hf : jsStartsWith f.type "image/" = false) (hg : g.result = none) :
    (onMouseDown t W H none d shapes).2 = shapes ∧
    onMouseMove W H none d shapes = shapes ∧
    dropAtPointer src W H none shapes = shapes ∧
    onDrop W H pos none shapes = shapes ∧
    onDrop W H pos (some ⟨"", []⟩) shapes = shapes ∧
    onDrop W H pos (some ⟨"", [f]⟩) shapes = shapes ∧
    onDrop W H pos (some ⟨"", [g]⟩) shapes = shapes ∧
    dropImageFromUpload W H center none shapes = shapes := by
  refine ⟨?_, ?_, rfl, rfl, ?_, ?_, ?_, rfl⟩
  · unfold onMouseDown
    split
    · rfl
    · rfl
  · unfold onMouseMove
    split
    · rfl
    · rfl
  · simp [onDrop]
  · simp [onDrop, hf]
  · cases hb : jsStartsWith g.type "image/" with
    | false => simp [onDrop, hb]
    | true => simp [onDrop, hb, hg]

/-- Witness for C7 at concrete inputs: a text file (not an image MIME), an
image file with a non-string reader result, and unavailable pointer
positions, over a one-stroke store. -/
theorem narrow_failures_are_noops_witness :
    (jsStartsWith "text/plain" "image/" = false) ∧
    ((none : Option String) = none) ∧
    ((onMouseDown ToolType.pen 800 600 none true
        [AnyShape.line ⟨ToolType.pen, "#222", 3, [0, 0]⟩]).2 =
      [AnyShape.line ⟨ToolType.pen, "#222", 3, [0, 0]⟩] ∧
    onMouseMove 800 600 none true [AnyShape.line ⟨ToolType.pen, "#222", 3, [0, 0]⟩] =
      [AnyShape.line ⟨ToolType.pen, "#222", 3, [0, 0]⟩] ∧
    dropAtPointer "img" 800 600 none [AnyShape.line ⟨ToolType.pen, "#222", 3, [0, 0]⟩] =
      [AnyShape.line ⟨ToolType.pen, "#222", 3, [0, 0]⟩] ∧
    onDrop 800 600 (some ⟨400, 300⟩) none [AnyShape.line ⟨ToolType.pen, "#222", 3, [0, 0]⟩] =
      [AnyShape.line ⟨ToolType.pen, "#222", 3, [0, 0]⟩] ∧
    onDrop 800 600 (some ⟨400, 300⟩) (some ⟨"", []⟩)
        [AnyShape.line ⟨ToolType.pen, "#222", 3, [0, 0]⟩] =
      [AnyShape.line ⟨ToolType.pen, "#222", 3, [0, 0]⟩] ∧
    onDrop 800 600 (some ⟨400, 300⟩) (some ⟨"", [⟨"text/plain", some "hello"⟩]⟩)
        [AnyShape.line ⟨ToolType.pen, "#222", 3, [0, 0]⟩] =
      [AnyShape.line ⟨ToolType.pen, "#222", 3, [0, 0]⟩] ∧
    onDrop 800 600 (some ⟨400, 300⟩) (some ⟨"", [⟨"image/png", none⟩]⟩)
        [AnyShape.line ⟨ToolType.pen, "#222", 3, [0, 0]⟩] =
      [AnyShape.line ⟨ToolType.pen, "#222", 3, [0, 0]⟩] ∧
    dropImageFromUpload 800 600 ⟨400, 300⟩ none
        [AnyShape.line ⟨ToolType.pen, "#222", 3, [0, 0]⟩] =
      [AnyShape.line ⟨ToolType.pen, "#222", 3, [0, 0]⟩]) :=
  ⟨by decide, rfl,
    narrow_failures_are_noops 800 600 ToolType.pen true (some ⟨400, 300⟩) ⟨400, 300⟩
      "img" [AnyShape.line ⟨ToolType.pen, "#222", 3, [0, 0]⟩]
      ⟨"text/plain", some "hello"⟩ ⟨"image/png", none⟩ (by decide) rfl⟩

/-- C8: stroke attributes depend only on the tool active at pointer-down:
highlight strokes are translucent yellow (`rgba(255,255,0,0.5)`) at width 3,
pen strokes opaque dark (`#222`) at width 3, eraser strokes width 24; the
render layer gives eraser strokes the `destination-out` ("cut-out")
compositing mode and pen/highlight strokes `source-over`, drawing
pen/highlight in their stored color. -/
theorem stroke_attributes_by_tool (W H : ℚ) (p : Pointer) (d : Bool)
    (shapes : List AnyShape) (c : String) (sw : ℚ) (pts : List ℚ) :
    (onMouseDown ToolType.pen W H (some p) d shapes).2 = shapes ++
      [AnyShape.line ⟨ToolType.pen, "#222", 3,
        [clamp (p.x / W) 0 1, clamp (p.y / H) 0 1]⟩] ∧
    (onMouseDown ToolType.highlight W H (some p) d shapes).2 = shapes ++
      [AnyShape.line ⟨ToolType.highlight, "rgba(255,255,0,0.5)", 3,
        [clamp (p.x / W) 0 1, clamp (p.y / H) 0 1]⟩] ∧
    (onMouseDown ToolType.eraser W H (some p) d shapes).2 = shapes ++
      [AnyShape.line ⟨ToolType.eraser, "#222", 24,
        [clamp (p.x / W) 0 1, clamp (p.y / H) 0 1]⟩] ∧
    (renderLine W H ⟨ToolType.pen, c, sw, pts⟩).globalCompositeOperation =
      "source-over" ∧
    (renderLine W H ⟨ToolType.highlight, c, sw, pts⟩).globalCompositeOperation =
      "source-over" ∧
    (renderLine W H ⟨ToolType.eraser, c, sw, pts⟩).globalCompositeOperation =
      "destination-out" ∧
    (renderLine W H ⟨ToolType.pen, c, sw, pts⟩).stroke = c ∧
    (renderLine W H ⟨ToolType.highlight, c, sw, pts⟩).stroke = c := by
  refine ⟨?_, ?_, ?_, ?_, ?_, ?_, ?_, ?_⟩ <;>
    simp [onMouseDown, renderLine]

/-- C9: repositioning a placed image commits to the store only on drag
release: the release pixel position is renormalized (clamped) and only that
shape's `x`/`y` change — its `src`, `width`, `height` and every other shape
are untouched — and the rendered image wires up no drag-move handler, so no
store mutation happens on intermediate drag ticks. -/
theorem image_drag_commits_on_release (index : ℕ) (W H : ℚ) (rel : Pointer)
    (shapes : List AnyShape) (img : ImageShape) (imgEl : Option ImgEl)
    (hidx : shapes.get? index = some (AnyShape.image img)) :
    handleDragEnd index W H rel shapes = shapes.set index (AnyShape.image
      ⟨img.src, clamp (rel.x / W) 0 1, clamp (rel.y / H) 0 1, img.width, img.height⟩) ∧
    (∀ j, j ≠ index → (handleDragEnd index W H rel shapes).get? j = shapes.get? j) ∧
    (handleDragEnd index W H rel shapes).length = shapes.length ∧
    (renderImage W H imgEl img).hasDragEndHandler = true ∧
    (renderImage W H imgEl img).hasDragMoveHandler = false := by
  have hmain : handleDragEnd index W H rel shapes = shapes.set index (AnyShape.image
      ⟨img.src, clamp (rel.x / W) 0 1, clamp (rel.y / H) 0 1, img.width, img.height⟩) := by
    unfold handleDragEnd commitPos
    rw [hidx]
  refine ⟨hmain, ?_, ?_, ?_, ?_⟩
  · intro j hj
    rw [hmain]
    simp [List.get?_eq_getElem?, List.getElem?_set_ne (Ne.symm hj)]
  · rw [hmain, List.length_set]
  · cases imgEl <;> rfl
  · cases imgEl <;> rfl

/-- Witness for C9: dragging the only image of a store to pixel (600, 150)
on an 800×600 surface commits normalized (3/4, 1/4), preserving src and
size. -/
theorem image_drag_commits_on_release_witness :
    ([AnyShape.image ⟨"img", 1/2, 1/2, 1/4, 1/4⟩].get? 0 =
      some (AnyShape.image ⟨"img", 1/2, 1/2, 1/4, 1/4⟩)) ∧
    handleDragEnd 0 800 600 ⟨600, 150⟩ [AnyShape.image ⟨"img", 1/2, 1/2, 1/4, 1/4⟩] =
      [AnyShape.image ⟨"img", 3/4, 1/4, 1/4, 1/4⟩] ∧
    (renderImage 800 600 none ⟨"img", 1/2, 1/2, 1/4, 1/4⟩).hasDragMoveHandler = false := by
  have h := image_drag_commits_on_release 0 800 600 ⟨600, 150⟩
    [AnyShape.image ⟨"img", 1/2, 1/2, 1/4, 1/4⟩] ⟨"img", 1/2, 1/2, 1/4, 1/4⟩ none rfl
  refine ⟨rfl, h.1.trans ?_, h.2.2.2.2⟩
  norm_num [clamp, min_def, max_def]

/-- C10: a pointer-down with a stroke tool whose pointer position is
unavailable raises the drawing flag but appends no stroke; a following
pointer-move with an available position then appends its normalized point
to the store's previous last shape, provided that shape is a stroke from an
earlier gesture. -/
theorem down_without_position_extends_previous_stroke (t : ToolType) (W H : ℚ)
    (p : Pointer) (prev : List AnyShape) (last : LineShape)
    (ht : t = ToolType.pen ∨ t = ToolType.highlight ∨ t = ToolType.eraser)
    (hlast : prev.getLast? = some (AnyShape.line last))
    (hstroke : last.tool = ToolType.pen ∨ last.tool = ToolType.highlight ∨
      last.tool = ToolType.eraser) :
    onMouseDown t W H none false prev = (true, prev) ∧
    onMouseMove W H (some p) true prev = prev.dropLast ++ [AnyShape.line
      { last with points := last.points ++ [clamp (p.x / W) 0 1, clamp (p.y / H) 0 1] }] := by
  constructor
  · unfold onMouseDown
    rw [if_neg (not_not_intro ht)]
  · exact onMouseMove_stroke_last W H p prev last hlast hstroke

/-- Witness for C10: pen-down with no pointer position over a store ending
in an earlier pen stroke, then a move at (400, 300) on an 800×600 surface:
the earlier stroke gains the point (1/2, 1/2). -/
theorem down_without_position_extends_previous_stroke_witness :
    (ToolType.pen = ToolType.pen ∨ ToolType.pen = ToolType.highlight ∨
      ToolType.pen = ToolType.eraser) ∧
    ([AnyShape.line ⟨ToolType.pen, "#222", 3, [0, 0]⟩].getLast? =
      some (AnyShape.line ⟨ToolType.pen, "#222", 3, [0, 0]⟩)) ∧
    onMouseDown ToolType.pen 800 600 none false
        [AnyShape.line ⟨ToolType.pen, "#222", 3, [0, 0]⟩] =
      (true, [AnyShape.line ⟨ToolType.pen, "#222", 3, [0, 0]⟩]) ∧
    onMouseMove 800 600 (some ⟨400, 300⟩) true
        [AnyShape.line ⟨ToolType.pen, "#222", 3, [0, 0]⟩] =
      [AnyShape.line ⟨ToolType.pen, "#222", 3, [0, 0, 1/2, 1/2]⟩] := by
  have h := down_without_position_extends_previous_stroke ToolType.pen 800 600
    ⟨400, 300⟩ [AnyShape.line ⟨ToolType.pen, "#222", 3, [0, 0]⟩]
    ⟨ToolType.pen, "#222", 3, [0, 0]⟩ (Or.inl rfl) rfl (Or.inl rfl)
  refine ⟨Or.inl rfl, rfl, h.1, h.2.trans ?_⟩
  norm_num [clamp, min_def, max_def]

end Whiteboard
